import Mathlib

set_option maxRecDepth 4000

/-!
Verification of the provisioning orchestration kernel of this repository:
`bin/flash_gui.py` (the flash state machine, its log buffer and the password
registry) and `bin/tools/gen_factory_payload.py` (the factory payload codec).

Python strings are modelled as Lean `String`/`List Char` restricted to the
ASCII alphabet actually used by the program: the Unicode-aware Python
classifiers (`str.isalnum`, `str.lower`, `\w` in regexes) are embedded by
their ASCII restrictions, on which they agree with Lean's `Char` classifiers.
Byte strings are `List Nat` with every byte below 256.
-/

/-! ## Python string helpers -/

/-- Whitespace characters stripped by Python `str.strip` / `str.rstrip`
(ASCII subset: space, tab, newline, carriage return, vertical tab, form feed). -/
def pyIsSpace (c : Char) : Bool :=
  c = ' ' || c = '\t' || c = '\n' || c = '\r' || c = '\x0b' || c = '\x0c'

/-- Python `str.strip()`: remove leading and trailing whitespace. -/
def pyStrip (s : String) : String :=
  ⟨((s.data.dropWhile pyIsSpace).reverse.dropWhile pyIsSpace).reverse⟩

/-- Python `str.rstrip()`: remove trailing whitespace. -/
def pyRstrip (s : String) : String :=
  ⟨(s.data.reverse.dropWhile pyIsSpace).reverse⟩

/-- Python `str.lower()` on the ASCII alphabet. -/
def pyLower (s : String) : String :=
  ⟨s.data.map fun c => if 'A' ≤ c && c ≤ 'Z' then Char.ofNat (c.toNat + 32) else c⟩

/-- Python `int(str)`: optional surrounding whitespace, optional sign, a
nonempty run of decimal digits.  (PEP 515 underscore grouping is not used by
any input this development evaluates and is not modelled.) -/
def parsePyInt (s : String) : Option Int :=
  let t := (pyStrip s).data
  let core : List Char → Option Nat := fun ds =>
    if ds ≠ [] && ds.all Char.isDigit then
      some (ds.foldl (fun acc d => acc * 10 + (d.toNat - 48)) 0)
    else none
  match t with
  | '-' :: ds => (core ds).map fun n => -(n : Int)
  | '+' :: ds => (core ds).map fun n => (n : Int)
  | ds => (core ds).map fun n => (n : Int)

/-! ## ANSI escape stripping (flash_gui.py, `ANSI_ESCAPE` regex)

The regex matches ESC, an opening bracket, parameter bytes (digits,
semicolon, question mark, zero or more), intermediate bytes (0x20 to 0x2F,
zero or more) and one final byte (0x40 to 0x7E).  Its three character
classes are pairwise disjoint, so Python's leftmost greedy matching
coincides with the deterministic scan below. -/

/-- Parameter bytes of the ANSI escape pattern: digits, semicolon, question mark. -/
def isParamByte (c : Char) : Bool := c.isDigit || c = ';' || c = '?'

/-- Intermediate bytes of the ANSI escape pattern: 0x20 to 0x2F. -/
def isInterByte (c : Char) : Bool := 32 ≤ c.toNat && c.toNat ≤ 47

/-- Final bytes of the ANSI escape pattern: 0x40 to 0x7E. -/
def isFinalByte (c : Char) : Bool := 64 ≤ c.toNat && c.toNat ≤ 126

/-- Try to match the tail of an ANSI escape (what follows ESC and the
bracket); return the characters after the match when it succeeds. -/
def ansiMatch (l : List Char) : Option (List Char) :=
  match (l.dropWhile isParamByte).dropWhile isInterByte with
  | c :: rest => if isFinalByte c then some rest else none
  | [] => none

/-- Dropping a prefix never lengthens a list. -/
theorem dropWhile_length_le (p : Char → Bool) (l : List Char) :
    (l.dropWhile p).length ≤ l.length := by
  induction l with
  | nil => simp
  | cons x xs ih => by_cases hx : p x <;> simp [List.dropWhile, hx] <;> omega

/-- Length bound used for the fuel of the scanner below. -/
theorem ansiMatch_length_le {l rest : List Char} (h : ansiMatch l = some rest) :
    rest.length < l.length + 1 := by
  unfold ansiMatch at h
  have h1 : ((l.dropWhile isParamByte).dropWhile isInterByte).length ≤ l.length :=
    le_trans (dropWhile_length_le _ _) (dropWhile_length_le _ _)
  cases hm : (l.dropWhile isParamByte).dropWhile isInterByte with
  | nil => rw [hm] at h; cases h
  | cons c tl =>
    rw [hm] at h
    by_cases hf : isFinalByte c = true
    · simp [hf] at h
      subst h
      rw [hm] at h1
      simp at h1
      omega
    · simp [hf] at h

/-- Scanner for `ANSI_ESCAPE.sub("", ·)`.  The fuel argument equals the
length of the remaining input at every call (established below), which makes
the recursion structural; the zero-fuel fallback is unreachable. -/
def stripAnsiGo : Nat → List Char → List Char
  | _, [] => []
  | 0, l => l
  | fuel + 1, c :: rest =>
    if c = '\x1b' then
      match rest with
      | '[' :: rest2 =>
        match ansiMatch rest2 with
        | some rest3 => stripAnsiGo fuel rest3
        | none => c :: stripAnsiGo fuel rest
      | _ => c :: stripAnsiGo fuel rest
    else c :: stripAnsiGo fuel rest

/-- `ANSI_ESCAPE.sub("", l)`: remove every ANSI escape sequence. -/
def stripAnsi (l : List Char) : List Char := stripAnsiGo l.length l

/-- Log-line sanitisation of `FlashManager._append_log`:
`ANSI_ESCAPE.sub("", message.replace("\r", ""))`. -/
def sanitizeLine (message : String) : String :=
  ⟨stripAnsi (message.data.filter fun c => c ≠ '\r')⟩

/-! ## Payload codec (`bin/tools/gen_factory_payload.py`) -/

/-- Magic constant `0x46504346` ('FCPF', Factory Config Payload). -/
def MAGIC : Nat := 0x46504346

/-- Payload format version. -/
def VERSION : Nat := 1

/-- Fixed width of the serial field. -/
def SERIAL_FIELD_LEN : Nat := 32

/-- Fixed width of the password field. -/
def PASSWORD_FIELD_LEN : Nat := 64

/-- Width of the reserved zero region. -/
def RESERVED_LEN : Nat := 48

/-- `struct.pack("<H", n)`: two little-endian bytes. -/
def le16Bytes (n : Nat) : List Nat := [n % 256, n / 256 % 256]

/-- `struct.pack("<I", n)`: four little-endian bytes. -/
def le32Bytes (n : Nat) : List Nat :=
  [n % 256, n / 256 % 256, n / 65536 % 256, n / 16777216 % 256]

/-- Little-endian decoding of a four-byte field. -/
def le32Value (bs : List Nat) : Nat :=
  match bs with
  | [a, b, c, d] => a + 256 * b + 65536 * c + 16777216 * d
  | _ => 0

/-- Reflected CRC-32 generator polynomial used by `binascii.crc32`. -/
def crcPoly : Nat := 0xEDB88320

/-- One bit step of the reflected CRC-32. -/
def crcStep1 (c : Nat) : Nat := if c % 2 = 1 then (c / 2) ^^^ crcPoly else c / 2

/-- Iterated bit steps of the reflected CRC-32. -/
def crcStepN : Nat → Nat → Nat
  | 0, c => c
  | n + 1, c => crcStepN n (crcStep1 c)

/-- One byte step of the reflected CRC-32: xor the byte in, then eight bit steps. -/
def crcStep8 (c b : Nat) : Nat := crcStepN 8 (c ^^^ b)

/-- `binascii.crc32(data) & 0xFFFFFFFF`: IEEE CRC-32 with initial value
`0xFFFFFFFF` and final complement. -/
def crc32 (data : List Nat) : Nat := (data.foldl crcStep8 0xFFFFFFFF) ^^^ 0xFFFFFFFF

/-- `str.encode("ascii")`: the byte list of the characters when they are all
ASCII, an encode error (`none`) otherwise. -/
def asciiEncode (s : String) : Option (List Nat) :=
  if s.data.all (fun c => c.toNat ≤ 127) then some (s.data.map Char.toNat) else none

/-- `bytes.ljust(n, b"\x00")`: pad on the right with NUL bytes up to width
`n`; longer inputs are returned unchanged. -/
def ljustZero (bs : List Nat) (n : Nat) : List Nat :=
  bs ++ List.replicate (n - bs.length) 0

/-- Python's Unicode-aware `str.isalnum`, on the Basic Latin and Latin-1
Supplement blocks (code points up to U+00FF): the ASCII alphanumerics, plus
the Latin-1 code points whose Unicode category makes `isalnum` true — the
ordinal indicators ª and º, the micro sign µ, the superscript digits ¹ ² ³,
the vulgar fractions ¼ ½ ¾, and the letters U+00C0 to U+00FF other than the
multiplication sign × and the division sign ÷.  (`str.isalnum` is also true
of alphanumerics above U+00FF; no statement below evaluates it there.) -/
def pyIsAlnum (c : Char) : Bool :=
  c.isAlphanum || c = 'ª' || c = 'µ' || c = 'º' || c = '¹' || c = '²' || c = '³' ||
    c = '¼' || c = '½' || c = '¾' ||
    (192 ≤ c.toNat && c.toNat ≤ 255 && c ≠ '×' && c ≠ '÷')

/-- `sanitize_serial`: keep only alphanumeric characters (Unicode-aware
`char.isalnum()`), underscore and dash, truncate to 28 characters, fail when
nothing remains. -/
def sanitize_serial (value : String) : Except String String :=
  let sanitized := (value.data.filter fun c => pyIsAlnum c || c = '_' || c = '-').take 28
  if sanitized = [] then
    .error "Serial suffix must contain at least one valid character (alphanumeric/_/-)."
  else .ok ⟨sanitized⟩

/-- `validate_password`: length in [8,63] and printable ASCII only. -/
def validate_password (value : String) : Except String String :=
  if 8 ≤ value.length ∧ value.length ≤ 63 then
    if value.data.all (fun c => 32 ≤ c.toNat && c.toNat ≤ 126) then .ok value
    else .error "Password must contain printable ASCII characters only."
  else .error "Password must be between 8 and 63 characters."

/-- `build_payload`: header (`struct.pack("<IHH", MAGIC, VERSION, 0x01)`),
NUL-padded serial and password fields, reserved zeros, and a trailing
little-endian CRC-32 over everything before it.  An `encode("ascii")`
failure surfaces as `none`. -/
def build_payload (serial_suffix password : String) : Option (List Nat) :=
  match asciiEncode serial_suffix, asciiEncode password with
  | some serial_bytes, some password_bytes =>
    let body := le32Bytes MAGIC ++ le16Bytes VERSION ++ le16Bytes 1
      ++ ljustZero serial_bytes SERIAL_FIELD_LEN
      ++ ljustZero password_bytes PASSWORD_FIELD_LEN
      ++ List.replicate RESERVED_LEN 0
    some (body ++ le32Bytes (crc32 body))
  | _, _ => none

/-- Embedding step of `main` (gen_factory_payload.py): reject a payload
larger than the partition, otherwise fill a partition-sized buffer with the
erased-flash sentinel `0xFF` and write the payload at offset 0. -/
def embed (payload : List Nat) (partition_size : Nat) : Except String (List Nat) :=
  if payload.length > partition_size then
    .error "Payload does not fit in partition. Increase the partition size."
  else .ok (payload ++ List.replicate (partition_size - payload.length) 0xFF)

/-- Modelled from the spec (§3): decoding of a NUL-padded ASCII field of the
fixed payload layout — strip trailing NULs, decode the remaining bytes.  The
repository contains no parser (the device firmware reads the blob); this
definition follows the spec's layout words and is only used to state the
round-trip claim. -/
def decodeField (bs : List Nat) : String :=
  ⟨(bs.takeWhile fun b => b ≠ 0).map Char.ofNat⟩

/-- Modelled from the spec (§3): the serial field occupies bytes 8..39. -/
def parseSerialField (blob : List Nat) : String := decodeField ((blob.drop 8).take 32)

/-- Modelled from the spec (§3): the password field occupies bytes 40..103. -/
def parsePasswordField (blob : List Nat) : String := decodeField ((blob.drop 40).take 64)

/-- Modelled from the spec (§3): the stored CRC is the little-endian word in
bytes 152..155. -/
def storedCrc (blob : List Nat) : Nat := le32Value (blob.drop 152)

/-- Modelled from the spec (§3): the checksum is recomputed over the 152
bytes preceding the CRC field. -/
def computedCrc (blob : List Nat) : Nat := crc32 (blob.take 152)

/-- The body of a payload before the CRC field, as assembled by
`build_payload` for ASCII inputs. -/
def payloadBody (s pw : String) : List Nat :=
  le32Bytes MAGIC ++ le16Bytes VERSION ++ le16Bytes 1
    ++ ljustZero (s.data.map Char.toNat) SERIAL_FIELD_LEN
    ++ ljustZero (pw.data.map Char.toNat) PASSWORD_FIELD_LEN
    ++ List.replicate RESERVED_LEN 0

/-! ## Character facts -/

/-- Alphanumeric ASCII characters lie between '0' (48) and 'z' (122). -/
theorem isAlphanum_toNat_bounds (c : Char) (h : c.isAlphanum = true) :
    48 ≤ c.toNat ∧ c.toNat ≤ 122 := by
  simp [Char.isAlphanum, Char.isAlpha, Char.isUpper, Char.isLower, Char.isDigit] at h
  have hconv : ∀ a b : UInt32, a ≤ b → a.toNat ≤ b.toNat := fun a b hab => hab
  rcases h with (⟨h1, h2⟩ | ⟨h1, h2⟩) | ⟨h1, h2⟩ <;>
    exact ⟨le_trans (by decide) (hconv _ _ h1), le_trans (hconv _ _ h2) (by decide)⟩

/-- Characters kept by `sanitize_serial` have code point at least 45 (the
dash); in particular none of them is NUL. -/
theorem serialChar_pos (c : Char) (h : (pyIsAlnum c || c = '_' || c = '-') = true) :
    45 ≤ c.toNat := by
  simp only [pyIsAlnum, Bool.or_eq_true, Bool.and_eq_true, decide_eq_true_eq] at h
  rcases h with
    ((((((((((((h | h) | h) | h) | h) | h) | h) | h) | h) | h) | h) | h) | h)
  · have := isAlphanum_toNat_bounds c h
    omega
  · subst h; decide
  · subst h; decide
  · subst h; decide
  · subst h; decide
  · subst h; decide
  · subst h; decide
  · subst h; decide
  · subst h; decide
  · subst h; decide
  · omega
  · subst h; decide
  · subst h; decide

/-! ## List helpers -/

/-- Setting an element at or beyond the taken prefix leaves the prefix unchanged. -/
theorem take_set_of_le {α : Type} (l : List α) (i : Nat) (v : α) (n : Nat) (h : n ≤ i) :
    (l.set i v).take n = l.take n := by
  apply List.ext_getElem
  · simp
  · intro j h1 h2
    have hj : j < n := by simp [List.length_take] at h1; omega
    simp only [List.getElem_take]
    rw [List.getElem_set_ne (by omega)]

/-- Setting an element inside the taken prefix commutes with taking. -/
theorem take_set_comm {α : Type} (l : List α) (i : Nat) (v : α) (n : Nat) (h : i < n) :
    (l.set i v).take n = (l.take n).set i v := by
  apply List.ext_getElem
  · simp
  · intro j h1 h2
    simp only [List.getElem_take]
    by_cases hj : i = j
    · subst hj
      have hi : i < l.length := by
        simp [List.length_take, List.length_set] at h1
        omega
      rw [List.getElem_set_self, List.getElem_set_self]
    · rw [List.getElem_set_ne hj, List.getElem_set_ne hj, List.getElem_take]

/-- Replacing an element with a different value yields a different list. -/
theorem set_ne_of_getD {l : List Nat} {i : Nat} {v : Nat} (hi : i < l.length)
    (h : v ≠ l.getD i 0) : l.set i v ≠ l := by
  intro he
  apply h
  have h1 : (l.set i v).getD i 0 = l.getD i 0 := by rw [he]
  rw [List.getD_eq_getElem _ _ (by simpa using hi), List.getD_eq_getElem _ _ hi] at h1
  rw [List.getElem_set_self] at h1
  rw [List.getD_eq_getElem _ _ hi]
  exact h1

/-- Taking while nonzero across a NUL padding recovers the unpadded bytes. -/
theorem takeWhile_append_zeros (bs : List Nat) (h : ∀ x ∈ bs, x ≠ 0) (k : Nat) :
    ((bs ++ List.replicate k 0).takeWhile fun b => b ≠ 0) = bs := by
  induction bs with
  | nil =>
    cases k with
    | zero => simp
    | succ m => simp [List.replicate_succ, List.takeWhile_cons]
  | cons x xs ih =>
    have hx : x ≠ 0 := h x (List.mem_cons_self x xs)
    simp only [List.cons_append]
    rw [List.takeWhile_cons, if_pos (by simpa using hx)]
    rw [ih fun y hy => h y (List.mem_cons_of_mem x hy)]

/-- Decoding a NUL-padded ASCII field recovers the original characters. -/
theorem decodeField_pad (l : List Char) (h : ∀ c ∈ l, c.toNat ≠ 0) (k : Nat) :
    decodeField (l.map Char.toNat ++ List.replicate k 0) = ⟨l⟩ := by
  unfold decodeField
  rw [takeWhile_append_zeros _ (by
    intro x hx
    simp only [List.mem_map] at hx
    obtain ⟨c, hc, rfl⟩ := hx
    exact h c hc) k]
  rw [List.map_map]
  congr 1
  calc l.map (Char.ofNat ∘ Char.toNat) = l.map id :=
        List.map_congr_left fun c _ => Char.ofNat_toNat c
    _ = l := List.map_id l

/-! ## CRC-32 facts -/

/-- One bit step keeps the state a 32-bit value. -/
theorem crcStep1_lt {c : Nat} (h : c < 2 ^ 32) : crcStep1 c < 2 ^ 32 := by
  unfold crcStep1
  split
  · exact Nat.xor_lt_two_pow (by omega) (by decide)
  · omega

/-- xor by a fixed value cancels on the right. -/
theorem xor_cancel_right {a b x : Nat} (h : a ^^^ x = b ^^^ x) : a = b := by
  have h2 := congrArg (fun y => y ^^^ x) h
  simpa [Nat.xor_assoc, Nat.xor_self, Nat.xor_zero] using h2

/-- xor by a fixed value cancels on the left. -/
theorem xor_cancel_left {a x y : Nat} (h : a ^^^ x = a ^^^ y) : x = y := by
  have h2 := congrArg (fun z => a ^^^ z) h
  simpa [← Nat.xor_assoc, Nat.xor_self, Nat.zero_xor] using h2

/-- One bit step is injective on 32-bit states. -/
theorem crcStep1_inj {a b : Nat} (ha : a < 2 ^ 32) (hb : b < 2 ^ 32)
    (h : crcStep1 a = crcStep1 b) : a = b := by
  unfold crcStep1 at h
  by_cases h1 : a % 2 = 1 <;> by_cases h2 : b % 2 = 1
  · rw [if_pos h1, if_pos h2] at h
    have := xor_cancel_right h
    omega
  · rw [if_pos h1, if_neg h2] at h
    exfalso
    have hbit : ((a / 2) ^^^ crcPoly).testBit 31 = true := by
      rw [Nat.testBit_xor, Nat.testBit_lt_two_pow (show a / 2 < 2 ^ 31 by omega)]
      decide
    rw [h] at hbit
    rw [Nat.testBit_lt_two_pow (show b / 2 < 2 ^ 31 by omega)] at hbit
    cases hbit
  · rw [if_neg h1, if_pos h2] at h
    exfalso
    have hbit : ((b / 2) ^^^ crcPoly).testBit 31 = true := by
      rw [Nat.testBit_xor, Nat.testBit_lt_two_pow (show b / 2 < 2 ^ 31 by omega)]
      decide
    rw [← h] at hbit
    rw [Nat.testBit_lt_two_pow (show a / 2 < 2 ^ 31 by omega)] at hbit
    cases hbit
  · rw [if_neg h1, if_neg h2] at h
    omega

/-- Iterated bit steps keep the state a 32-bit value. -/
theorem crcStepN_lt : ∀ (n : Nat) {c : Nat}, c < 2 ^ 32 → crcStepN n c < 2 ^ 32
  | 0, _, h => h
  | n + 1, _, h => crcStepN_lt n (crcStep1_lt h)

/-- Iterated bit steps are injective on 32-bit states. -/
theorem crcStepN_inj : ∀ (n : Nat) {a b : Nat}, a < 2 ^ 32 → b < 2 ^ 32 →
    crcStepN n a = crcStepN n b → a = b
  | 0, _, _, _, _, h => h
  | n + 1, _, _, ha, hb, h =>
    crcStep1_inj ha hb (crcStepN_inj n (crcStep1_lt ha) (crcStep1_lt hb) h)

/-- The byte step keeps the state a 32-bit value. -/
theorem crcStep8_lt {c b : Nat} (hc : c < 2 ^ 32) (hb : b < 2 ^ 32) :
    crcStep8 c b < 2 ^ 32 :=
  crcStepN_lt 8 (Nat.xor_lt_two_pow hc hb)

/-- The byte step is injective in the state. -/
theorem crcStep8_inj_state {a b x : Nat} (ha : a < 2 ^ 32) (hb : b < 2 ^ 32)
    (hx : x < 2 ^ 32) (h : crcStep8 a x = crcStep8 b x) : a = b :=
  xor_cancel_right
    (crcStepN_inj 8 (Nat.xor_lt_two_pow ha hx) (Nat.xor_lt_two_pow hb hx) h)

/-- The byte step is injective in the byte. -/
theorem crcStep8_inj_byte {c x y : Nat} (hc : c < 2 ^ 32) (hx : x < 2 ^ 32)
    (hy : y < 2 ^ 32) (h : crcStep8 c x = crcStep8 c y) : x = y :=
  xor_cancel_left
    (crcStepN_inj 8 (Nat.xor_lt_two_pow hc hx) (Nat.xor_lt_two_pow hc hy) h)

/-- Folding the byte step over 32-bit bytes keeps the state a 32-bit value. -/
theorem crcFold_lt : ∀ (l : List Nat), (∀ x ∈ l, x < 2 ^ 32) → ∀ {a : Nat},
    a < 2 ^ 32 → l.foldl crcStep8 a < 2 ^ 32
  | [], _, _, ha => ha
  | x :: xs, hl, _, ha =>
    crcFold_lt xs (fun y hy => hl y (List.mem_cons_of_mem x hy))
      (crcStep8_lt ha (hl x (List.mem_cons_self x xs)))

/-- Folding the byte step over the same bytes from different states keeps the
states different. -/
theorem crcFold_inj : ∀ (l : List Nat), (∀ x ∈ l, x < 2 ^ 32) → ∀ {a b : Nat},
    a < 2 ^ 32 → b < 2 ^ 32 → a ≠ b → l.foldl crcStep8 a ≠ l.foldl crcStep8 b
  | [], _, _, _, _, _, hne => hne
  | x :: xs, hl, _, _, ha, hb, hne =>
    have hx := hl x (List.mem_cons_self x xs)
    crcFold_inj xs (fun y hy => hl y (List.mem_cons_of_mem x hy))
      (crcStep8_lt ha hx) (crcStep8_lt hb hx)
      (fun h => hne (crcStep8_inj_state ha hb hx h))

/-- Replacing one byte of a byte string changes the CRC fold. -/
theorem crcFold_set_ne : ∀ (l : List Nat) (i : Nat) (v : Nat) {a : Nat},
    (∀ x ∈ l, x < 256) → a < 2 ^ 32 → i < l.length → v < 256 → v ≠ l.getD i 0 →
    (l.set i v).foldl crcStep8 a ≠ l.foldl crcStep8 a := by
  intro l
  induction l with
  | nil => intro i v a _ _ hi; simp at hi
  | cons x xs ih =>
    intro i v a hl ha hi hv hne
    have hx : x < 256 := hl x (List.mem_cons_self x xs)
    have hxs : ∀ y ∈ xs, y < 256 := fun y hy => hl y (List.mem_cons_of_mem x hy)
    cases i with
    | zero =>
      simp only [List.set, List.foldl_cons]
      have hvx : v ≠ x := by simpa using hne
      exact crcFold_inj xs (fun y hy => lt_trans (hxs y hy) (by norm_num))
        (crcStep8_lt ha (by omega)) (crcStep8_lt ha (by omega))
        (fun h => hvx (crcStep8_inj_byte ha (by omega) (by omega) h))
    | succ j =>
      simp only [List.set, List.foldl_cons]
      exact ih j v hxs (crcStep8_lt ha (by omega)) (by simpa using hi) hv
        (by simpa using hne)

/-- Replacing one byte of a byte string changes its CRC-32. -/
theorem crc32_set_ne (l : List Nat) (hl : ∀ x ∈ l, x < 256) {i : Nat}
    (hi : i < l.length) {v : Nat} (hv : v < 256) (hne : v ≠ l.getD i 0) :
    crc32 (l.set i v) ≠ crc32 l := by
  unfold crc32
  intro h
  exact crcFold_set_ne l i v (fun x hx => hl x hx) (by norm_num) hi hv hne
    (xor_cancel_right h)

/-- The CRC-32 of any byte string is a 32-bit value. -/
theorem crc32_lt (l : List Nat) (hl : ∀ x ∈ l, x < 2 ^ 32) : crc32 l < 2 ^ 32 :=
  Nat.xor_lt_two_pow (crcFold_lt l hl (by norm_num)) (by norm_num)

/-- Little-endian encode/decode round trip for 32-bit values. -/
theorem le32Value_le32Bytes (n : Nat) (h : n < 2 ^ 32) : le32Value (le32Bytes n) = n := by
  simp only [le32Value, le32Bytes]
  omega

/-- Changing one byte of a four-byte field changes its little-endian value. -/
theorem le32Value_set_ne (a b c d : Nat) (j v : Nat) (hj : j < 4)
    (hne : v ≠ [a, b, c, d].getD j 0) :
    le32Value ([a, b, c, d].set j v) ≠ le32Value [a, b, c, d] := by
  interval_cases j <;>
    simp only [List.set, le32Value, List.getD_cons_zero, List.getD_cons_succ] at hne ⊢ <;>
    omega

/-- xor with 255 flips the low bit, so it never fixes a value. -/
theorem xor255_ne (x : Nat) : x ^^^ 255 ≠ x := by
  intro h
  have h2 := congrArg (fun y => y.testBit 0) h
  simp only [Nat.testBit_xor] at h2
  have : (255 : Nat).testBit 0 = true := by decide
  rw [this] at h2
  simp at h2

/-! ## Payload structure lemmas -/

/-- Facts guaranteed by a successful `sanitize_serial`. -/
theorem sanitize_serial_ok {raw s : String} (h : sanitize_serial raw = Except.ok s) :
    (∀ c ∈ s.data, (pyIsAlnum c || c = '_' || c = '-') = true) ∧
    s.data.length ≤ 28 ∧ s.data ≠ [] := by
  simp only [sanitize_serial] at h
  split at h
  · cases h
  case isFalse hne =>
    cases h
    refine ⟨?_, ?_, hne⟩
    · intro c hc
      have h2 : c ∈ raw.data.filter fun c => pyIsAlnum c || c = '_' || c = '-' :=
        List.take_subset _ _ hc
      exact (List.mem_filter.mp h2).2
    · simpa using List.length_take_le 28 _

/-- Facts guaranteed by a successful `validate_password`. -/
theorem validate_password_ok {raw pw : String} (h : validate_password raw = Except.ok pw) :
    pw = raw ∧ 8 ≤ pw.length ∧ pw.length ≤ 63 ∧
      ∀ c ∈ pw.data, 32 ≤ c.toNat ∧ c.toNat ≤ 126 := by
  unfold validate_password at h
  split at h
  case isTrue hlen =>
    split at h
    case isTrue hall =>
      cases h
      refine ⟨rfl, hlen.1, hlen.2, ?_⟩
      intro c hc
      have h2 := List.all_eq_true.mp hall c hc
      simpa using h2
    case isFalse => cases h
  case isFalse => cases h

/-- For ASCII inputs `build_payload` produces the body followed by its CRC. -/
theorem build_payload_eq {s pw : String}
    (hs : ∀ c ∈ s.data, c.toNat ≤ 127) (hp : ∀ c ∈ pw.data, c.toNat ≤ 127) :
    build_payload s pw =
      some (payloadBody s pw ++ le32Bytes (crc32 (payloadBody s pw))) := by
  have h1 : asciiEncode s = some (s.data.map Char.toNat) := by
    unfold asciiEncode
    rw [if_pos (List.all_eq_true.mpr fun c hc => by simpa using hs c hc)]
  have h2 : asciiEncode pw = some (pw.data.map Char.toNat) := by
    unfold asciiEncode
    rw [if_pos (List.all_eq_true.mpr fun c hc => by simpa using hp c hc)]
  unfold build_payload payloadBody
  rw [h1, h2]

/-- The body before the CRC field is exactly 152 bytes long. -/
theorem payloadBody_length {s pw : String} (hs : s.data.length ≤ 32)
    (hp : pw.data.length ≤ 64) : (payloadBody s pw).length = 152 := by
  simp only [payloadBody, ljustZero, le32Bytes, le16Bytes, SERIAL_FIELD_LEN,
    PASSWORD_FIELD_LEN, RESERVED_LEN, List.length_append, List.length_replicate,
    List.length_map, List.length_cons, List.length_nil]
  omega

/-- Every byte of the body is below 256. -/
theorem payloadBody_bytes_lt {s pw : String}
    (hs : ∀ c ∈ s.data, c.toNat ≤ 127) (hp : ∀ c ∈ pw.data, c.toNat ≤ 127) :
    ∀ x ∈ payloadBody s pw, x < 256 := by
  intro x hx
  unfold payloadBody ljustZero at hx
  rcases List.mem_append.mp hx with h1 | hF
  · rcases List.mem_append.mp h1 with h2 | hE
    · rcases List.mem_append.mp h2 with h3 | hD
      · rcases List.mem_append.mp h3 with h4 | hC
        · rcases List.mem_append.mp h4 with hA | hB
          · simp only [le32Bytes, List.mem_cons, List.not_mem_nil, or_false] at hA
            rcases hA with rfl | rfl | rfl | rfl <;> exact Nat.mod_lt _ (by norm_num)
          · simp only [le16Bytes, List.mem_cons, List.not_mem_nil, or_false] at hB
            rcases hB with rfl | rfl <;> exact Nat.mod_lt _ (by norm_num)
        · simp only [le16Bytes, List.mem_cons, List.not_mem_nil, or_false] at hC
          rcases hC with rfl | rfl <;> exact Nat.mod_lt _ (by norm_num)
      · rcases List.mem_append.mp hD with hD1 | hD2
        · obtain ⟨c, hc, rfl⟩ := List.mem_map.mp hD1
          have := hs c hc
          omega
        · rw [List.eq_of_mem_replicate hD2]
          norm_num
    · rcases List.mem_append.mp hE with hE1 | hE2
      · obtain ⟨c, hc, rfl⟩ := List.mem_map.mp hE1
        have := hp c hc
        omega
      · rw [List.eq_of_mem_replicate hE2]
        norm_num
  · rw [List.eq_of_mem_replicate hF]
    norm_num

/-- Every byte of a full blob (body plus CRC field) is below 256. -/
theorem payloadBlob_bytes_lt {s pw : String}
    (hs : ∀ c ∈ s.data, c.toNat ≤ 127) (hp : ∀ c ∈ pw.data, c.toNat ≤ 127) :
    ∀ x ∈ payloadBody s pw ++ le32Bytes (crc32 (payloadBody s pw)), x < 256 := by
  intro x hx
  rcases List.mem_append.mp hx with h | h
  · exact payloadBody_bytes_lt hs hp x h
  · simp only [le32Bytes, List.mem_cons, List.not_mem_nil, or_false] at h
    rcases h with rfl | rfl | rfl | rfl <;> exact Nat.mod_lt _ (by norm_num)

/-- Right-nested regrouping of a blob, cutting after the 4-byte magic. -/
theorem blob_group4 (s pw : String) (c : List Nat) :
    payloadBody s pw ++ c =
      le32Bytes MAGIC ++ (le16Bytes VERSION ++ (le16Bytes 1 ++
        (ljustZero (s.data.map Char.toNat) SERIAL_FIELD_LEN ++
          (ljustZero (pw.data.map Char.toNat) PASSWORD_FIELD_LEN ++
            (List.replicate RESERVED_LEN 0 ++ c))))) := by
  simp [payloadBody, List.append_assoc]

/-- Right-nested regrouping of a blob, cutting after the 8-byte header. -/
theorem blob_group8 (s pw : String) (c : List Nat) :
    payloadBody s pw ++ c =
      (le32Bytes MAGIC ++ le16Bytes VERSION ++ le16Bytes 1) ++
        (ljustZero (s.data.map Char.toNat) SERIAL_FIELD_LEN ++
          (ljustZero (pw.data.map Char.toNat) PASSWORD_FIELD_LEN ++
            (List.replicate RESERVED_LEN 0 ++ c))) := by
  simp [payloadBody, List.append_assoc]

/-- The NUL-padded serial field is exactly 32 bytes when the serial fits. -/
theorem serField_length {s : String} (hs : s.data.length ≤ 32) :
    (ljustZero (s.data.map Char.toNat) SERIAL_FIELD_LEN).length = 32 := by
  simp only [ljustZero, SERIAL_FIELD_LEN, List.length_append, List.length_replicate,
    List.length_map]
  omega

/-- The NUL-padded password field is exactly 64 bytes when the password fits. -/
theorem pwField_length {pw : String} (hp : pw.data.length ≤ 64) :
    (ljustZero (pw.data.map Char.toNat) PASSWORD_FIELD_LEN).length = 64 := by
  simp only [ljustZero, PASSWORD_FIELD_LEN, List.length_append, List.length_replicate,
    List.length_map]
  omega

/-- Bytes 0 to 3 of a blob are the magic word. -/
theorem blob_take4 (s pw : String) (c : List Nat) :
    (payloadBody s pw ++ c).take 4 = le32Bytes MAGIC := by
  rw [blob_group4]
  exact List.take_left' (by simp [le32Bytes])

/-- Bytes 4 and 5 of a blob are the version word. -/
theorem blob_drop4_take2 (s pw : String) (c : List Nat) :
    ((payloadBody s pw ++ c).drop 4).take 2 = le16Bytes VERSION := by
  rw [blob_group4, List.drop_left' (by simp [le32Bytes])]
  exact List.take_left' (by simp [le16Bytes])

/-- Bytes 6 and 7 of a blob are the flags word. -/
theorem blob_drop6_take2 (s pw : String) (c : List Nat) :
    ((payloadBody s pw ++ c).drop 6).take 2 = le16Bytes 1 := by
  have h : (payloadBody s pw ++ c).drop 6 = ((payloadBody s pw ++ c).drop 4).drop 2 :=
    (List.drop_drop 2 4 _).symm
  rw [h, blob_group4, List.drop_left' (by simp [le32Bytes]),
    List.drop_left' (by simp [le16Bytes])]
  exact List.take_left' (by simp [le16Bytes])

/-- Bytes 8 to 39 of a blob are the NUL-padded serial field. -/
theorem blob_drop8_take32 {s : String} (pw : String) (hs : s.data.length ≤ 32)
    (c : List Nat) :
    ((payloadBody s pw ++ c).drop 8).take 32 =
      ljustZero (s.data.map Char.toNat) SERIAL_FIELD_LEN := by
  rw [blob_group8, List.drop_left' (by simp [le32Bytes, le16Bytes])]
  exact List.take_left' (serField_length hs)

/-- Bytes 40 to 103 of a blob are the NUL-padded password field. -/
theorem blob_drop40_take64 {s pw : String} (hs : s.data.length ≤ 32)
    (hp : pw.data.length ≤ 64) (c : List Nat) :
    ((payloadBody s pw ++ c).drop 40).take 64 =
      ljustZero (pw.data.map Char.toNat) PASSWORD_FIELD_LEN := by
  have h : (payloadBody s pw ++ c).drop 40 = ((payloadBody s pw ++ c).drop 8).drop 32 :=
    (List.drop_drop 32 8 _).symm
  rw [h, blob_group8, List.drop_left' (by simp [le32Bytes, le16Bytes]),
    List.drop_left' (serField_length hs)]
  exact List.take_left' (pwField_length hp)

/-- Bytes 104 to 151 of a blob are the reserved zeros. -/
theorem blob_drop104_take48 {s pw : String} (hs : s.data.length ≤ 32)
    (hp : pw.data.length ≤ 64) (c : List Nat) :
    ((payloadBody s pw ++ c).drop 104).take 48 = List.replicate RESERVED_LEN 0 := by
  have h : (payloadBody s pw ++ c).drop 104 = ((payloadBody s pw ++ c).drop 40).drop 64 :=
    (List.drop_drop 64 40 _).symm
  have h40 : (payloadBody s pw ++ c).drop 40 = ((payloadBody s pw ++ c).drop 8).drop 32 :=
    (List.drop_drop 32 8 _).symm
  rw [h, h40, blob_group8, List.drop_left' (by simp [le32Bytes, le16Bytes]),
    List.drop_left' (serField_length hs), List.drop_left' (pwField_length hp)]
  exact List.take_left' (by simp [RESERVED_LEN])

/-- The first 152 bytes of a blob are the body. -/
theorem blob_take152 {s pw : String} (hs : s.data.length ≤ 32)
    (hp : pw.data.length ≤ 64) (c : List Nat) :
    (payloadBody s pw ++ c).take 152 = payloadBody s pw :=
  List.take_left' (payloadBody_length hs hp)

/-- The bytes of a blob past offset 152 are the trailing field. -/
theorem blob_drop152 {s pw : String} (hs : s.data.length ≤ 32)
    (hp : pw.data.length ≤ 64) (c : List Nat) :
    (payloadBody s pw ++ c).drop 152 = c :=
  List.drop_left' (payloadBody_length hs hp)

/-- A successful `build_payload` certifies ASCII inputs and fixes the blob. -/
theorem build_payload_some_eq {s pw : String} {blob : List Nat}
    (h : build_payload s pw = some blob) :
    (∀ c ∈ s.data, c.toNat ≤ 127) ∧ (∀ c ∈ pw.data, c.toNat ≤ 127) ∧
      blob = payloadBody s pw ++ le32Bytes (crc32 (payloadBody s pw)) := by
  unfold build_payload at h
  cases hs : asciiEncode s with
  | none => rw [hs] at h; exact Option.noConfusion h
  | some sb =>
    cases hp : asciiEncode pw with
    | none => rw [hs, hp] at h; exact Option.noConfusion h
    | some pb =>
      rw [hs, hp] at h
      have hs2 : ∀ c ∈ s.data, c.toNat ≤ 127 := by
        unfold asciiEncode at hs
        split at hs
        · next hall => exact fun c hc => by simpa using List.all_eq_true.mp hall c hc
        · cases hs
      have hp2 : ∀ c ∈ pw.data, c.toNat ≤ 127 := by
        unfold asciiEncode at hp
        split at hp
        · next hall => exact fun c hc => by simpa using List.all_eq_true.mp hall c hc
        · cases hp
      have hsb : sb = s.data.map Char.toNat := by
        unfold asciiEncode at hs
        split at hs
        · exact (Option.some.inj hs).symm
        · cases hs
      have hpb : pb = pw.data.map Char.toNat := by
        unfold asciiEncode at hp
        split at hp
        · exact (Option.some.inj hp).symm
        · cases hp
      subst hsb
      subst hpb
      exact ⟨hs2, hp2, (Option.some.inj h).symm⟩

/-- Claim C3 (amended): for every sanitized serial that consists of ASCII
characters, and every valid credential, `build_payload` returns exactly the
156-byte blob laid out as 4-byte magic, 2-byte version, 2-byte flags, a
32-byte NUL-padded ASCII serial field, a 64-byte NUL-padded ASCII password
field, 48 zero bytes, and a trailing little-endian CRC-32 computed over the
preceding 152 bytes.  (When the sanitized serial contains a non-ASCII
alphanumeric, `build_payload` fails with an ASCII-encoding error instead of
returning a payload — see the counterexample.) -/
theorem build_payload_layout (rawS rawP s pw : String)
    (hs : sanitize_serial rawS = Except.ok s)
    (hascii : ∀ c ∈ s.data, c.toNat ≤ 127)
    (hp : validate_password rawP = Except.ok pw) :
    build_payload s pw =
      some (payloadBody s pw ++ le32Bytes (crc32 (payloadBody s pw))) ∧
    (payloadBody s pw ++ le32Bytes (crc32 (payloadBody s pw))).length = 156 ∧
    (payloadBody s pw ++ le32Bytes (crc32 (payloadBody s pw))).take 4 =
      le32Bytes MAGIC ∧
    ((payloadBody s pw ++ le32Bytes (crc32 (payloadBody s pw))).drop 4).take 2 =
      le16Bytes VERSION ∧
    ((payloadBody s pw ++ le32Bytes (crc32 (payloadBody s pw))).drop 6).take 2 =
      le16Bytes 1 ∧
    ((payloadBody s pw ++ le32Bytes (crc32 (payloadBody s pw))).drop 8).take 32 =
      s.data.map Char.toNat ++ List.replicate (32 - s.length) 0 ∧
    ((payloadBody s pw ++ le32Bytes (crc32 (payloadBody s pw))).drop 40).take 64 =
      pw.data.map Char.toNat ++ List.replicate (64 - pw.length) 0 ∧
    ((payloadBody s pw ++ le32Bytes (crc32 (payloadBody s pw))).drop 104).take 48 =
      List.replicate 48 0 ∧
    (payloadBody s pw ++ le32Bytes (crc32 (payloadBody s pw))).drop 152 =
      le32Bytes (crc32
        ((payloadBody s pw ++ le32Bytes (crc32 (payloadBody s pw))).take 152)) := by
  obtain ⟨-, hlen28, -⟩ := sanitize_serial_ok hs
  obtain ⟨-, -, hlen63, hpchars⟩ := validate_password_ok hp
  have hs127 : ∀ c ∈ s.data, c.toNat ≤ 127 := hascii
  have hp127 : ∀ c ∈ pw.data, c.toNat ≤ 127 := fun c hc =>
    le_trans (hpchars c hc).2 (by norm_num)
  have hs32 : s.data.length ≤ 32 := by omega
  have hp64 : pw.data.length ≤ 64 := by
    have h1 : pw.data.length ≤ 63 := hlen63
    omega
  refine ⟨build_payload_eq hs127 hp127, ?_, blob_take4 s pw _, blob_drop4_take2 s pw _,
    blob_drop6_take2 s pw _, ?_, ?_, by
      rw [blob_drop104_take48 hs32 hp64]; rfl, ?_⟩
  · simp [List.length_append, payloadBody_length hs32 hp64, le32Bytes]
  · rw [blob_drop8_take32 pw hs32]
    unfold ljustZero
    rw [List.length_map]
    rfl
  · rw [blob_drop40_take64 hs32 hp64]
    unfold ljustZero
    rw [List.length_map]
    rfl
  · rw [blob_drop152 hs32 hp64, blob_take152 hs32 hp64]

/-- The payload blob for serial UNIT01 and password Sup3rSecret!, a concrete
instance used by witnesses and counterexamples. -/
def demoBlob : List Nat :=
  payloadBody "UNIT01" "Sup3rSecret!" ++
    le32Bytes (crc32 (payloadBody "UNIT01" "Sup3rSecret!"))

/-- Witness for claim C3 at serial UNIT01 and password Sup3rSecret!. -/
theorem build_payload_layout_witness :
    build_payload "UNIT01" "Sup3rSecret!" = some demoBlob ∧ demoBlob.length = 156 := by
  have h := build_payload_layout "UNIT01" "Sup3rSecret!" "UNIT01" "Sup3rSecret!" rfl
    (by decide) rfl
  exact ⟨h.1, h.2.1⟩

/-- Claim C3 counterexample: Python's `str.isalnum` is Unicode-aware, so
`sanitize_serial` keeps the letter é; on that sanitized serial (with a valid
credential) `build_payload` fails with an ASCII-encoding error instead of
returning a 156-byte blob, so the claim does not hold of every sanitized
serial. -/
theorem payload_layout_unicode_counterexample :
    sanitize_serial "é" = Except.ok "é" ∧
    validate_password "Sup3rSecret!" = Except.ok "Sup3rSecret!" ∧
    build_payload "é" "Sup3rSecret!" = none :=
  ⟨rfl, rfl, rfl⟩

/-- Claim C9: every blob produced by `build_payload` carries the fixed header
constants: magic `0x46504346` little-endian in bytes 0 to 3, version 1 in
bytes 4 and 5, flags `0x0001` in bytes 6 and 7, for all inputs. -/
theorem build_payload_header_constants (s pw : String) (blob : List Nat)
    (h : build_payload s pw = some blob) :
    blob.take 4 = [0x46, 0x43, 0x50, 0x46] ∧
    (blob.drop 4).take 2 = [1, 0] ∧
    (blob.drop 6).take 2 = [1, 0] := by
  obtain ⟨-, -, hb⟩ := build_payload_some_eq h
  subst hb
  refine ⟨?_, ?_, ?_⟩
  · rw [blob_take4]; decide
  · rw [blob_drop4_take2]; decide
  · rw [blob_drop6_take2]; decide

/-- Witness for claim C9 at serial UNIT01 and password Sup3rSecret!. -/
theorem build_payload_header_constants_witness :
    demoBlob.take 4 = [0x46, 0x43, 0x50, 0x46] ∧
    (demoBlob.drop 4).take 2 = [1, 0] ∧
    (demoBlob.drop 6).take 2 = [1, 0] :=
  build_payload_header_constants "UNIT01" "Sup3rSecret!" demoBlob
    (build_payload_eq (by decide) (by decide))

/-- Claim C5: `embed` fails exactly when the payload exceeds the partition
size; otherwise it returns a buffer of exactly the partition size with the
payload at offset 0 and every byte past the payload equal to 0xFF. -/
theorem embed_spec (payload : List Nat) (n : Nat) :
    ((∃ e, embed payload n = Except.error e) ↔ payload.length > n) ∧
    ∀ b, embed payload n = Except.ok b →
      b.length = n ∧ b.take payload.length = payload ∧
      b.drop payload.length = List.replicate (n - payload.length) 0xFF := by
  constructor
  · constructor
    · rintro ⟨e, he⟩
      unfold embed at he
      split at he
      · assumption
      · cases he
    · intro h
      exact ⟨_, by unfold embed; rw [if_pos h]⟩
  · intro b hb
    unfold embed at hb
    split at hb
    · cases hb
    · cases hb
      next hle =>
      refine ⟨?_, List.take_left' rfl, List.drop_left' rfl⟩
      simp only [List.length_append, List.length_replicate]
      omega

/-- Witness for claim C5: a 2-byte payload in a 4-byte partition. -/
theorem embed_spec_witness :
    ([1, 2, 255, 255] : List Nat).length = 4 ∧
    ([1, 2, 255, 255] : List Nat).take 2 = [1, 2] ∧
    ([1, 2, 255, 255] : List Nat).drop 2 = List.replicate 2 0xFF :=
  (embed_spec [1, 2] 4).2 [1, 2, 255, 255] rfl

/-- Claim C4 (amended): for every sanitized serial and valid credential,
parsing the fixed layout of the encoder's output recovers the exact serial
and credential strings, the CRC-32 recomputed over the first 152 bytes
equals the stored CRC; flipping any single byte of the 152-byte body changes
the CRC-32 computed over the body; and flipping any single byte anywhere in
the blob makes the recomputed CRC differ from the stored CRC, so validation
never passes on a tampered blob. -/
theorem payload_roundtrip_crc (rawS rawP s pw : String) (blob : List Nat)
    (hs : sanitize_serial rawS = Except.ok s)
    (hp : validate_password rawP = Except.ok pw)
    (hb : build_payload s pw = some blob) :
    parseSerialField blob = s ∧
    parsePasswordField blob = pw ∧
    computedCrc blob = storedCrc blob ∧
    (∀ i v, i < 152 → v < 256 → v ≠ blob.getD i 0 →
      computedCrc (blob.set i v) ≠ computedCrc blob) ∧
    (∀ i v, i < 156 → v < 256 → v ≠ blob.getD i 0 →
      computedCrc (blob.set i v) ≠ storedCrc (blob.set i v)) := by
  obtain ⟨hchars, hlen28, -⟩ := sanitize_serial_ok hs
  obtain ⟨-, -, hlen63, hpchars⟩ := validate_password_ok hp
  obtain ⟨hs127, hp127, hbe⟩ := build_payload_some_eq hb
  have hs32 : s.data.length ≤ 32 := by omega
  have hp64 : pw.data.length ≤ 64 := by
    have h1 : pw.data.length ≤ 63 := hlen63
    omega
  subst hbe
  have hbodylen : (payloadBody s pw).length = 152 := payloadBody_length hs32 hp64
  have hbloblen :
      (payloadBody s pw ++ le32Bytes (crc32 (payloadBody s pw))).length = 156 := by
    simp [List.length_append, hbodylen, le32Bytes]
  have hbytes : ∀ x ∈ payloadBody s pw, x < 256 := payloadBody_bytes_lt hs127 hp127
  have hcrclt : crc32 (payloadBody s pw) < 2 ^ 32 :=
    crc32_lt _ fun x hx => lt_trans (hbytes x hx) (by norm_num)
  have hcrcmatch :
      computedCrc (payloadBody s pw ++ le32Bytes (crc32 (payloadBody s pw))) =
        storedCrc (payloadBody s pw ++ le32Bytes (crc32 (payloadBody s pw))) := by
    unfold computedCrc storedCrc
    rw [blob_take152 hs32 hp64, blob_drop152 hs32 hp64, le32Value_le32Bytes _ hcrclt]
  have hgetD : ∀ i, i < 152 →
      (payloadBody s pw ++ le32Bytes (crc32 (payloadBody s pw))).getD i 0 =
        (payloadBody s pw).getD i 0 := by
    intro i hi
    rw [List.getD_eq_getElem _ _ (by omega), List.getD_eq_getElem _ _ (by omega)]
    exact List.getElem_append_left _
  have hflip : ∀ i v, i < 152 → v < 256 →
      v ≠ (payloadBody s pw ++ le32Bytes (crc32 (payloadBody s pw))).getD i 0 →
      computedCrc ((payloadBody s pw ++ le32Bytes (crc32 (payloadBody s pw))).set i v) ≠
        computedCrc (payloadBody s pw ++ le32Bytes (crc32 (payloadBody s pw))) := by
    intro i v hi hv hne
    unfold computedCrc
    rw [take_set_comm _ _ _ _ hi, blob_take152 hs32 hp64]
    exact crc32_set_ne _ hbytes (by omega) hv (by rw [← hgetD i hi]; exact hne)
  refine ⟨?_, ?_, hcrcmatch, hflip, ?_⟩
  · unfold parseSerialField
    rw [blob_drop8_take32 pw hs32]
    unfold ljustZero
    rw [decodeField_pad _ (fun c hc => by
      have := serialChar_pos c (hchars c hc); omega) _]
  · unfold parsePasswordField
    rw [blob_drop40_take64 hs32 hp64]
    unfold ljustZero
    rw [decodeField_pad _ (fun c hc => by have := hpchars c hc; omega) _]
  · intro i v hi hv hne
    by_cases hlt : i < 152
    · have hst :
          storedCrc ((payloadBody s pw ++
              le32Bytes (crc32 (payloadBody s pw))).set i v) =
            storedCrc (payloadBody s pw ++ le32Bytes (crc32 (payloadBody s pw))) := by
        unfold storedCrc
        rw [List.drop_set, if_pos hlt]
      rw [hst, ← hcrcmatch]
      exact hflip i v hlt hv hne
    · have hcomp :
          computedCrc ((payloadBody s pw ++
              le32Bytes (crc32 (payloadBody s pw))).set i v) =
            computedCrc (payloadBody s pw ++ le32Bytes (crc32 (payloadBody s pw))) := by
        unfold computedCrc
        rw [take_set_of_le _ _ _ _ (by omega)]
      have hgd2 :
          (payloadBody s pw ++ le32Bytes (crc32 (payloadBody s pw))).getD i 0 =
            (le32Bytes (crc32 (payloadBody s pw))).getD (i - 152) 0 := by
        rw [List.getD_eq_getElem _ _ (by omega),
          List.getD_eq_getElem _ _ (by simp [le32Bytes]; omega)]
        rw [List.getElem_append_right (by omega)]
        simp only [hbodylen]
      have hstored :
          storedCrc ((payloadBody s pw ++
              le32Bytes (crc32 (payloadBody s pw))).set i v) =
            le32Value ((le32Bytes (crc32 (payloadBody s pw))).set (i - 152) v) := by
        unfold storedCrc
        rw [List.drop_set, if_neg hlt, blob_drop152 hs32 hp64]
      rw [hcomp, hcrcmatch, hstored]
      unfold storedCrc
      rw [blob_drop152 hs32 hp64]
      have hne2 : v ≠ (le32Bytes (crc32 (payloadBody s pw))).getD (i - 152) 0 := by
        rw [← hgd2]; exact hne
      simp only [le32Bytes] at hne2 ⊢
      have h3 := le32Value_set_ne (crc32 (payloadBody s pw) % 256)
        (crc32 (payloadBody s pw) / 256 % 256)
        (crc32 (payloadBody s pw) / 65536 % 256)
        (crc32 (payloadBody s pw) / 16777216 % 256) (i - 152) v (by omega) hne2
      exact h3.symm

/-- Witness for claim C4 at serial UNIT01 and password Sup3rSecret!. -/
theorem payload_roundtrip_crc_witness :
    parseSerialField demoBlob = "UNIT01" ∧
    parsePasswordField demoBlob = "Sup3rSecret!" ∧
    computedCrc demoBlob = storedCrc demoBlob := by
  have h := payload_roundtrip_crc "UNIT01" "Sup3rSecret!" "UNIT01" "Sup3rSecret!"
    demoBlob rfl rfl (build_payload_eq (by decide) (by decide))
  exact ⟨h.1, h.2.1, h.2.2.1⟩

/-- Claim C4 counterexample: the blob for serial UNIT01 and password
Sup3rSecret! is a valid encoder output, and replacing its byte at offset 152
(inside the CRC field) by a different byte value is a single-byte flip of the
blob that leaves the CRC-32 computed over the body before the CRC field
unchanged — so flipping a byte of a valid blob need not change that CRC. -/
theorem payload_crc_flip_counterexample :
    build_payload "UNIT01" "Sup3rSecret!" = some demoBlob ∧
    demoBlob.set 152 (demoBlob.getD 152 0 ^^^ 255) ≠ demoBlob ∧
    crc32 ((demoBlob.set 152 (demoBlob.getD 152 0 ^^^ 255)).take 152) =
      crc32 (demoBlob.take 152) := by
  have h1 : ("UNIT01" : String).data.length ≤ 32 := by decide
  have h2 : ("Sup3rSecret!" : String).data.length ≤ 64 := by decide
  have hlen : demoBlob.length = 156 := by
    simp [demoBlob, List.length_append, payloadBody_length h1 h2, le32Bytes]
  refine ⟨build_payload_eq (by decide) (by decide), ?_, ?_⟩
  · exact set_ne_of_getD (by omega) (xor255_ne _)
  · exact congrArg crc32 (take_set_of_le _ _ _ _ le_rfl)

/-! ## Identifier formatting and password registry (`bin/flash_gui.py`) -/

/-- Serial-suffix prefix constant. -/
def IDENTIFIER_PREFIX : String := "CC"

/-- Python `f"{n:0wd}"`: sign, then zero padding up to total width, then digits. -/
def fmtPad (w : Nat) (n : Int) : String :=
  let sign := if n < 0 then "-" else ""
  let digits := toString n.natAbs
  sign ++ ⟨List.replicate (w - (sign.length + digits.length)) '0'⟩ ++ digits

/-- `format_identifier`: `CC{batch:02d}-{year:02d}{month:02d}{serial:04d}`. -/
def format_identifier (batch year month serial : Int) : String :=
  IDENTIFIER_PREFIX ++ fmtPad 2 batch ++ "-" ++ fmtPad 2 year ++ fmtPad 2 month ++
    fmtPad 4 serial

/-- The in-memory password registry: the `(batch, serial) -> password` entries
of `PasswordDatabase` in insertion order. -/
abbrev PasswordEntries := List ((Int × Int) × String)

/-- Dictionary lookup `self.entries[(batch, serial)]`. -/
def lookupEntry (entries : PasswordEntries) (key : Int × Int) : Option String :=
  (entries.find? fun e => e.1 = key).map Prod.snd

/-- The derived identity returned by `PasswordDatabase.lookup` (the Python
dict), with the `port` slot that `FlashManager.start` fills in later. -/
structure UnitInfo where
  batch : Int
  year : Int
  month : Int
  serial_number : Int
  serial : String
  ssid : String
  password : String
  port : String

/-- `PasswordDatabase.lookup`: validate batch, serial, year and month, then
look the credential up; every failure is a `ValueError` with the exact
message of the source. -/
def PasswordDatabase.lookup (entries : PasswordEntries)
    (batch serial year month : Int) : Except String UnitInfo :=
  if batch ≤ 0 then .error "Batch number must be positive."
  else if ¬(1 ≤ serial ∧ serial ≤ 100) then
    .error "Serial must be between 1 and 100."
  else if ¬(0 ≤ year ∧ year ≤ 99) then
    .error "Year must be between 00 and 99."
  else if ¬(1 ≤ month ∧ month ≤ 12) then
    .error "Month must be between 01 and 12."
  else
    match lookupEntry entries (batch, serial) with
    | none =>
      .error ("No password entry for batch " ++ toString batch ++ " serial " ++
        fmtPad 4 serial ++ ".")
    | some password =>
      .ok { batch := batch, year := year, month := month, serial_number := serial,
            serial := format_identifier batch year month serial,
            ssid := format_identifier batch year month serial,
            password := password, port := "" }

/-! ## Flash state machine (`FlashManager`) -/

/-- The mutable session state of `FlashManager`: busy flag, status code and
message, and the log lines. -/
structure FlashState where
  busy : Bool
  status_code : String
  status_message : String
  logs : List String

/-- The state set up by `FlashManager.__init__`. -/
def initialFlashState : FlashState :=
  { busy := false, status_code := "ready", status_message := "Ready to flash",
    logs := [] }

/-- Log capacity constant `self._max_lines`. -/
def MAX_LINES : Nat := 600

/-- The log update of `FlashManager._append_log`: sanitize, append, and keep
only the most recent `MAX_LINES` lines. -/
def appendLogLine (logs : List String) (message : String) : List String :=
  let l := logs ++ [sanitizeLine message]
  if MAX_LINES < l.length then l.drop (l.length - MAX_LINES) else l

/-- `FlashManager._append_log` acting on the whole session state. -/
def FlashManager.append_log (st : FlashState) (message : String) : FlashState :=
  { st with logs := appendLogLine st.logs message }

/-- `FlashManager.start`: resolve the identity through the registry, reject
when busy, otherwise enter the flashing state, seed the log, and hand the
unit (with its port) to the background task.  The third component is the
unit passed to the spawned `_run_flash` thread (`none` when not accepted). -/
def FlashManager.start (entries : PasswordEntries) (st : FlashState)
    (batch year month serial : Int) (port : Option String) :
    (Bool × String) × FlashState × Option UnitInfo :=
  match PasswordDatabase.lookup entries batch serial year month with
  | .error e => ((false, e), st, none)
  | .ok unit =>
    let port_value0 := pyStrip (port.getD "")
    let port_value := if pyLower port_value0 = "auto" then "" else port_value0
    if st.busy then ((false, "Flash already in progress."), st, none)
    else
      ((true, "Flash started."),
        { busy := true, status_code := "flashing",
          status_message := "Flashing " ++ unit.serial ++ "...",
          logs :=
            ["Starting flash for batch " ++ fmtPad 2 batch ++ " serial " ++
                fmtPad 4 serial ++ " (" ++ fmtPad 2 unit.year ++ "/" ++
                fmtPad 2 unit.month ++ ")",
              "SSID: " ++ unit.ssid] ++
            (if port_value ≠ "" then ["Port: " ++ port_value] else []) },
        some { unit with port := port_value })

/-- Claim C1: starting while busy is rejected and leaves the whole session
state (status code, status message, log lines) unchanged. -/
theorem flash_start_busy_no_change (entries : PasswordEntries) (st : FlashState)
    (batch year month serial : Int) (port : Option String) (hbusy : st.busy = true) :
    (FlashManager.start entries st batch year month serial port).1.1 = false ∧
    (FlashManager.start entries st batch year month serial port).2.1 = st := by
  unfold FlashManager.start
  cases h : PasswordDatabase.lookup entries batch serial year month with
  | error e => exact ⟨rfl, rfl⟩
  | ok unit => simp [hbusy]

/-- Witness for claim C1: a busy session rejects a second start request. -/
theorem flash_start_busy_no_change_witness :
    (FlashManager.start [((1, 1), "abcdefgh")]
      ⟨true, "flashing", "Flashing CC01-25090001...", ["line"]⟩
      1 25 9 1 (some "auto")).1.1 = false ∧
    (FlashManager.start [((1, 1), "abcdefgh")]
      ⟨true, "flashing", "Flashing CC01-25090001...", ["line"]⟩
      1 25 9 1 (some "auto")).2.1 =
      ⟨true, "flashing", "Flashing CC01-25090001...", ["line"]⟩ :=
  flash_start_busy_no_change [((1, 1), "abcdefgh")]
    ⟨true, "flashing", "Flashing CC01-25090001...", ["line"]⟩ 1 25 9 1 (some "auto") rfl

/-- Claim C10: when the registry lookup or parameter validation fails,
`start` returns not-accepted with the error message and leaves the entire
session state unchanged, busy or not. -/
theorem flash_start_error_no_change (entries : PasswordEntries) (st : FlashState)
    (batch year month serial : Int) (port : Option String) (e : String)
    (herr : PasswordDatabase.lookup entries batch serial year month = Except.error e) :
    FlashManager.start entries st batch year month serial port = ((false, e), st, none) := by
  unfold FlashManager.start
  rw [herr]

/-- Witness for claim C10: a lookup miss on an idle session. -/
theorem flash_start_error_no_change_witness :
    FlashManager.start [] initialFlashState 1 25 9 1 none =
      ((false, "No password entry for batch 1 serial 0001."), initialFlashState, none) :=
  flash_start_error_no_change [] initialFlashState 1 25 9 1 none
    "No password entry for batch 1 serial 0001." rfl

/-! ## External command construction and redaction -/

/-- The exception taxonomy `_run_flash` distinguishes: `FileNotFoundError`
(logged as `Error: ...`) versus any other exception (logged as
`Error launching flash: ...`). -/
inductive PyError where
  | fileNotFound (msg : String)
  | runtimeError (msg : String)

/-- The platform facts `build_flash_command` consults: `platform.system()`,
the production directory, whether each flash script exists, and which
PowerShell binary `find_powershell` would resolve. -/
structure FlashEnv where
  system : String
  production_dir : String
  darwin_script_exists : Bool
  windows_script_exists : Bool
  powershell : Option String

/-- `build_flash_command`: per-platform argument list for the external
flashing program (the returned working directory is not modelled). -/
def build_flash_command (env : FlashEnv) (serial password : String) (port : String) :
    Except PyError (List String) :=
  let port_arg := pyStrip port
  let use_port := port_arg ≠ "" && pyLower port_arg ≠ "auto"
  if env.system = "Darwin" then
    let script := env.production_dir ++ "/flash_main_hub.sh"
    if ¬env.darwin_script_exists then
      .error (.fileNotFound ("macOS script not found: " ++ script))
    else
      .ok (["/bin/bash", script, "--serial", serial, "--password", password] ++
        (if use_port then ["--port", port_arg] else []))
  else if env.system = "Windows" then
    let script := env.production_dir ++ "/flash_main_hub.ps1"
    if ¬env.windows_script_exists then
      .error (.fileNotFound ("PowerShell script not found: " ++ script))
    else
      match env.powershell with
      | none => .error (.fileNotFound "Neither pwsh nor powershell was found on PATH.")
      | some shell =>
        .ok ([shell, "-NoLogo", "-NoProfile", "-ExecutionPolicy", "Bypass", "-File",
          script, "-Serial", serial, "-Password", password] ++
          (if use_port then ["-Port", port_arg] else []))
  else .error (.runtimeError ("Unsupported operating system: " ++ env.system))

/-- Characters `shlex.quote` considers safe: ASCII word characters plus
at-sign, percent, plus, equals, colon, comma, dot, slash and dash. -/
def shlexSafe (c : Char) : Bool :=
  c.isAlphanum || c = '_' || c = '@' || c = '%' || c = '+' || c = '=' || c = ':' ||
    c = ',' || c = '.' || c = '/' || c = '-'

/-- `shlex.quote`: return safe strings unchanged, otherwise single-quote,
escaping embedded single quotes. -/
def shlexQuote (s : String) : String :=
  if s = "" then "''"
  else if s.data.all shlexSafe then s
  else "'" ++
    ⟨s.data.foldr (fun c acc => (if c = '\'' then "'\"'\"'".data else [c]) ++ acc) []⟩ ++
    "'"

/-- The redacted command rendering `_run_flash` logs:
`" ".join(shlex.quote(part) for part in command[:-1] + ["******"])`. -/
def command_display (command : List String) : String :=
  String.intercalate " " ((command.dropLast ++ ["******"]).map shlexQuote)

/-- Claim C7 evaluated at its failing input: on macOS with an explicit port,
the command list ends with the port, so the logged rendering masks the port
and carries the credential in clear. -/
theorem command_display_leaks_password :
    build_flash_command ⟨"Darwin", "/prod", true, true, none⟩
      "CC01-25090001" "SuperSecret99" "/dev/ttyUSB0" =
      Except.ok ["/bin/bash", "/prod/flash_main_hub.sh", "--serial", "CC01-25090001",
        "--password", "SuperSecret99", "--port", "/dev/ttyUSB0"] ∧
    command_display ["/bin/bash", "/prod/flash_main_hub.sh", "--serial", "CC01-25090001",
        "--password", "SuperSecret99", "--port", "/dev/ttyUSB0"] =
      "/bin/bash /prod/flash_main_hub.sh --serial CC01-25090001 --password " ++
        "SuperSecret99" ++ " --port '******'" := by
  constructor
  · rfl
  · rfl

/-! ## The background execution task (`FlashManager._run_flash`) -/

/-- What the external process interaction can do once the command has been
built: `subprocess.Popen` raising `FileNotFoundError` (missing executable),
any other launch exception, or a run producing output lines and an exit
code. -/
inductive ProcOutcome where
  | launchFileNotFound (msg : String)
  | launchFailure (msg : String)
  | ran (lines : List String) (exitCode : Int)

/-- `FlashManager._run_flash`: build the command (logging its redacted
rendering), stream the process output into the log, and atomically record
the terminal status, busy flag and final log line. -/
def runFlash (env : FlashEnv) (st : FlashState) (unit : UnitInfo)
    (proc : ProcOutcome) : FlashState :=
  let result : FlashState × Bool :=
    match build_flash_command env unit.serial unit.password unit.port with
    | .error (.fileNotFound msg) =>
      (FlashManager.append_log st ("Error: " ++ msg), false)
    | .error (.runtimeError msg) =>
      (FlashManager.append_log st ("Error launching flash: " ++ msg), false)
    | .ok command =>
      let st1 := FlashManager.append_log st ("Command: " ++ command_display command)
      match proc with
      | .launchFileNotFound msg =>
        (FlashManager.append_log st1 ("Error: " ++ msg), false)
      | .launchFailure msg =>
        (FlashManager.append_log st1 ("Error launching flash: " ++ msg), false)
      | .ran lines exitCode =>
        (lines.foldl (fun s line => FlashManager.append_log s (pyRstrip line)) st1,
          exitCode == 0)
  let success := result.2
  FlashManager.append_log
    { result.1 with
      busy := false,
      status_code := if success then "success" else "failed",
      status_message :=
        if success then "Successfully flashed " ++ unit.serial ++ "."
        else "Failed flashing " ++ unit.serial ++ ". Retry." }
    (if success then "Flash completed successfully."
     else "Flash failed. Check above logs.")

/-- Appending always leaves the appended (sanitized) line last. -/
theorem appendLogLine_getLast (logs : List String) (m : String) :
    (appendLogLine logs m).getLast? = some (sanitizeLine m) := by
  simp only [appendLogLine, MAX_LINES]
  split
  · next hgt =>
    rw [List.getLast?_drop, if_neg (by omega)]
    exact List.getLast?_concat _
  · exact List.getLast?_concat _

/-- Appending writes the sanitized line at the end of the session log. -/
theorem append_log_getLast (st : FlashState) (m : String) :
    (FlashManager.append_log st m).logs.getLast? = some (sanitizeLine m) :=
  appendLogLine_getLast st.logs m

/-- The sanitizer leaves the final failure message unchanged. -/
theorem failMessage_sanitize :
    sanitizeLine "Flash failed. Check above logs." = "Flash failed. Check above logs." := by
  decide

/-- Claim C2: the execution task always ends with `busy = false`; a build
success followed by exit code 0 ends with status `success`; a nonzero exit
code, a launch failure, or a command-building failure ends with status
`failed` and the final failure message as the last log line. -/
theorem run_flash_terminal_states (env : FlashEnv) (st : FlashState) (unit : UnitInfo)
    (proc : ProcOutcome) :
    (runFlash env st unit proc).busy = false ∧
    (∀ command lines,
      build_flash_command env unit.serial unit.password unit.port = Except.ok command →
      proc = ProcOutcome.ran lines 0 →
      (runFlash env st unit proc).status_code = "success") ∧
    (((∀ lines, proc ≠ ProcOutcome.ran lines 0) ∨
        ∀ command,
          build_flash_command env unit.serial unit.password unit.port ≠
            Except.ok command) →
      (runFlash env st unit proc).status_code = "failed" ∧
      (runFlash env st unit proc).logs.getLast? =
        some "Flash failed. Check above logs.") := by
  refine ⟨rfl, ?_, ?_⟩
  · intro command lines hcmd hproc
    subst hproc
    unfold runFlash
    rw [hcmd]
    rfl
  · intro hfail
    cases hb : build_flash_command env unit.serial unit.password unit.port with
    | error err =>
      cases err with
      | fileNotFound msg =>
        unfold runFlash
        rw [hb]
        refine ⟨rfl, ?_⟩
        show (FlashManager.append_log _ "Flash failed. Check above logs.").logs.getLast? =
          some "Flash failed. Check above logs."
        rw [append_log_getLast, failMessage_sanitize]
      | runtimeError msg =>
        unfold runFlash
        rw [hb]
        refine ⟨rfl, ?_⟩
        show (FlashManager.append_log _ "Flash failed. Check above logs.").logs.getLast? =
          some "Flash failed. Check above logs."
        rw [append_log_getLast, failMessage_sanitize]
    | ok command =>
      cases proc with
      | launchFileNotFound msg =>
        unfold runFlash
        rw [hb]
        refine ⟨rfl, ?_⟩
        show (FlashManager.append_log _ "Flash failed. Check above logs.").logs.getLast? =
          some "Flash failed. Check above logs."
        rw [append_log_getLast, failMessage_sanitize]
      | launchFailure msg =>
        unfold runFlash
        rw [hb]
        refine ⟨rfl, ?_⟩
        show (FlashManager.append_log _ "Flash failed. Check above logs.").logs.getLast? =
          some "Flash failed. Check above logs."
        rw [append_log_getLast, failMessage_sanitize]
      | ran lines exitCode =>
        have hexit : exitCode ≠ 0 := by
          rcases hfail with hfail | hfail
          · intro hc
            exact hfail lines (by rw [hc])
          · exact absurd hb (hfail command)
        have hsucc : (exitCode == 0) = false := by
          simp [hexit]
        unfold runFlash
        rw [hb]
        simp only [hsucc]
        refine ⟨rfl, ?_⟩
        show (FlashManager.append_log _ "Flash failed. Check above logs.").logs.getLast? =
          some "Flash failed. Check above logs."
        rw [append_log_getLast, failMessage_sanitize]

/-- Witness for claim C2: a run that exits with code 1 ends failed, not
busy, with the failure line last. -/
theorem run_flash_terminal_states_witness :
    (runFlash ⟨"Darwin", "/prod", true, true, none⟩ initialFlashState
      ⟨1, 25, 9, 1, "CC01-25090001", "CC01-25090001", "abcdefgh", ""⟩
      (ProcOutcome.ran [] 1)).busy = false ∧
    (runFlash ⟨"Darwin", "/prod", true, true, none⟩ initialFlashState
      ⟨1, 25, 9, 1, "CC01-25090001", "CC01-25090001", "abcdefgh", ""⟩
      (ProcOutcome.ran [] 1)).status_code = "failed" ∧
    (runFlash ⟨"Darwin", "/prod", true, true, none⟩ initialFlashState
      ⟨1, 25, 9, 1, "CC01-25090001", "CC01-25090001", "abcdefgh", ""⟩
      (ProcOutcome.ran [] 1)).logs.getLast? =
      some "Flash failed. Check above logs." := by
  have h := run_flash_terminal_states ⟨"Darwin", "/prod", true, true, none⟩
    initialFlashState ⟨1, 25, 9, 1, "CC01-25090001", "CC01-25090001", "abcdefgh", ""⟩
    (ProcOutcome.ran [] 1)
  have h2 := h.2.2 (Or.inl fun lines hl =>
    absurd (ProcOutcome.ran.inj hl).2 (by decide))
  exact ⟨h.1, h2.1, h2.2⟩

/-! ## Log buffer bound and retention -/

/-- One append starting from the last-600 window of `L` yields the last-600
window of `L` extended by the sanitized line. -/
theorem appendLogLine_drop (L : List String) (m : String) :
    appendLogLine (L.drop (L.length - 600)) m =
      (L ++ [sanitizeLine m]).drop ((L.length + 1) - 600) := by
  simp only [appendLogLine, MAX_LINES]
  have hd : L.drop (L.length - 600) ++ [sanitizeLine m] =
      (L ++ [sanitizeLine m]).drop (L.length - 600) :=
    (List.drop_append_of_le_length (by omega)).symm
  rw [hd]
  have hlen2 : (L ++ [sanitizeLine m]).length = L.length + 1 := by simp
  split
  · next hgt =>
    rw [List.drop_drop]
    have hlen3 := List.length_drop (L.length - 600) (L ++ [sanitizeLine m])
    rw [hlen2] at hlen3
    rw [hlen3] at hgt ⊢
    have hidx : L.length - 600 + (L.length + 1 - (L.length - 600) - 600) =
        L.length + 1 - 600 := by omega
    rw [hidx]
  · next hle =>
    have hlen3 := List.length_drop (L.length - 600) (L ++ [sanitizeLine m])
    rw [hlen2] at hlen3
    rw [hlen3] at hle
    have hidx : L.length - 600 = L.length + 1 - 600 := by omega
    rw [hidx]

/-- Folding appends over the last-600 window keeps tracking the last-600
window of the fully accumulated history. -/
theorem foldl_appendLogLine (ms : List String) : ∀ L : List String,
    ms.foldl appendLogLine (L.drop (L.length - 600)) =
      (L ++ ms.map sanitizeLine).drop ((L.length + ms.length) - 600) := by
  induction ms with
  | nil => intro L; simp
  | cons m rest ih =>
    intro L
    simp only [List.foldl_cons, List.map_cons]
    rw [appendLogLine_drop]
    rw [show (L.length + 1) - 600 = (L ++ [sanitizeLine m]).length - 600 by simp]
    rw [ih (L ++ [sanitizeLine m])]
    rw [show (L ++ [sanitizeLine m]) ++ rest.map sanitizeLine =
      L ++ (sanitizeLine m :: rest.map sanitizeLine) by simp]
    have hidx : (L ++ [sanitizeLine m]).length + rest.length - 600 =
        L.length + (m :: rest).length - 600 := by
      simp
      omega
    rw [hidx]

/-- Claim C6: starting from any state within the bound, after any sequence
of appends the log holds at most 600 lines and equals the suffix of the full
append history containing the most recently appended lines in order. -/
theorem log_buffer_bound (logs : List String) (ms : List String)
    (h : logs.length ≤ 600) :
    (ms.foldl appendLogLine logs).length ≤ 600 ∧
    ms.foldl appendLogLine logs =
      (logs ++ ms.map sanitizeLine).drop ((logs.length + ms.length) - 600) := by
  have h0 : logs.drop (logs.length - 600) = logs := by
    have h1 : logs.length - 600 = 0 := by omega
    rw [h1, List.drop_zero]
  have heq : ms.foldl appendLogLine logs =
      (logs ++ ms.map sanitizeLine).drop ((logs.length + ms.length) - 600) := by
    calc ms.foldl appendLogLine logs
        = ms.foldl appendLogLine (logs.drop (logs.length - 600)) := by rw [h0]
      _ = (logs ++ ms.map sanitizeLine).drop ((logs.length + ms.length) - 600) :=
        foldl_appendLogLine ms logs
  refine ⟨?_, heq⟩
  rw [heq, List.length_drop]
  simp only [List.length_append, List.length_map]
  omega

/-- Witness for claim C6: one append to a one-line log. -/
theorem log_buffer_bound_witness :
    (["b"].foldl appendLogLine ["a"]).length ≤ 600 ∧
    ["b"].foldl appendLogLine ["a"] =
      (["a"] ++ ["b"].map sanitizeLine).drop
        ((["a"] : List String).length + (["b"] : List String).length - 600) :=
  log_buffer_bound ["a"] ["b"] (by decide)

/-! ## Password registry loading (`PasswordDatabase.load`) -/

/-- One row of the delimited password table, keyed by the `batch`, `serial`
and `password` columns of `csv.DictReader`. -/
structure CsvRow where
  batch : String
  serial : String
  password : String

/-- The password source: whether the file exists, whether the header carries
the required columns, and the data rows. -/
structure CsvSource where
  file_exists : Bool
  has_required_columns : Bool
  rows : List CsvRow

/-- The row loop of `PasswordDatabase.load`: parse batch and serial as
integers, strip the password, enforce the serial range and the password
length, reject duplicate keys, and accumulate entries in row order.
(The messages carry the same content as the source's `SystemExit` texts;
interpolated file paths and raw-row dumps are not modelled.) -/
def loadRows : List CsvRow → List ((Int × Int) × String) →
    Except String (List ((Int × Int) × String))
  | [], acc => .ok acc
  | row :: rest, acc =>
    match parsePyInt row.batch, parsePyInt row.serial with
    | some batch, some serial =>
      let password := pyStrip row.password
      if ¬(1 ≤ serial ∧ serial ≤ 100) then
        .error ("Serial " ++ toString serial ++ " out of supported range 1-100.")
      else if password.length < 8 ∨ 63 < password.length then
        .error ("Password for batch " ++ toString batch ++ " serial " ++
          toString serial ++ " violates length constraints.")
      else if (acc.map Prod.fst).contains (batch, serial) then
        .error ("Duplicate password entry for batch " ++ toString batch ++
          " serial " ++ fmtPad 4 serial ++ ".")
      else loadRows rest (acc ++ [((batch, serial), password)])
    | _, _ => .error "Invalid batch/serial value."

/-- `PasswordDatabase.load`: fail when the file is missing or the header
lacks the required columns, otherwise run the row loop from an empty table. -/
def PasswordDatabase.load (src : CsvSource) :
    Except String (List ((Int × Int) × String)) :=
  if ¬src.file_exists then
    .error "Password database not found. Create passwords.csv (batch,serial,password)."
  else if ¬src.has_required_columns then
    .error "Password CSV must contain batch,serial,password columns."
  else loadRows src.rows []

/-- A row the loader accepts: parseable batch and serial, serial in range,
stripped password length in range. -/
def goodRow (r : CsvRow) : Prop :=
  ∃ b s, parsePyInt r.batch = some b ∧ parsePyInt r.serial = some s ∧
    1 ≤ s ∧ s ≤ 100 ∧ 8 ≤ (pyStrip r.password).length ∧
    (pyStrip r.password).length ≤ 63

/-- The entry a row contributes when the loader accepts it. -/
def rowEntry (r : CsvRow) : (Int × Int) × String :=
  (((parsePyInt r.batch).getD 0, (parsePyInt r.serial).getD 0), pyStrip r.password)

/-- A successful row loop certifies every row and produces exactly the
accumulated entries with pairwise distinct keys. -/
theorem loadRows_ok : ∀ (rows : List CsvRow) (acc entries : List ((Int × Int) × String)),
    loadRows rows acc = Except.ok entries →
    entries = acc ++ rows.map rowEntry ∧ (∀ r ∈ rows, goodRow r) ∧
    ((acc.map Prod.fst).Nodup → (entries.map Prod.fst).Nodup) := by
  intro rows
  induction rows with
  | nil =>
    intro acc entries h
    cases h
    exact ⟨by simp, by simp, fun hn => hn⟩
  | cons row rest ih =>
    intro acc entries h
    unfold loadRows at h
    cases hpb : parsePyInt row.batch with
    | none =>
      rw [hpb] at h
      cases hps : parsePyInt row.serial with
      | none => rw [hps] at h; exact Except.noConfusion h
      | some s => rw [hps] at h; exact Except.noConfusion h
    | some b =>
      cases hps : parsePyInt row.serial with
      | none => rw [hpb, hps] at h; exact Except.noConfusion h
      | some s =>
        rw [hpb, hps] at h
        simp only [] at h
        split at h
        · exact Except.noConfusion h
        next hrange =>
        split at h
        · exact Except.noConfusion h
        next hlen =>
        split at h
        · exact Except.noConfusion h
        next hdup =>
        obtain ⟨he, hgood, hnd⟩ := ih _ _ h
        refine ⟨?_, ?_, ?_⟩
        · rw [he]
          simp [rowEntry, hpb, hps, List.append_assoc]
        · intro r hr
          rcases List.mem_cons.mp hr with rfl | hr2
          · exact ⟨b, s, hpb, hps, by omega, by omega, by omega, by omega⟩
          · exact hgood r hr2
        · intro hnodup
          apply hnd
          rw [List.map_append]
          refine List.Nodup.append hnodup (by simp) ?_
          intro k hk1 hk2
          simp only [List.map_cons, List.map_nil, List.mem_singleton] at hk2
          subst hk2
          apply hdup
          exact List.elem_iff.mpr hk1

/-- Claim C8 (amended): after a successful load, every stored entry has its
serial in 1..100 and a stripped credential whose length is in 8..63, the
(batch, serial) keys are pairwise distinct, and every violation the loader
checks — missing file, missing columns, unparsable or out-of-range serial,
bad credential length, duplicate key — makes the load fail (equivalently, a
successful load certifies the source); the loader does not enforce
printability of the credential. -/
theorem password_load_invariant (src : CsvSource)
    (entries : List ((Int × Int) × String))
    (h : PasswordDatabase.load src = Except.ok entries) :
    src.file_exists = true ∧ src.has_required_columns = true ∧
    entries = src.rows.map rowEntry ∧
    (entries.map Prod.fst).Nodup ∧
    (∀ e ∈ entries, 1 ≤ e.1.2 ∧ e.1.2 ≤ 100 ∧ 8 ≤ e.2.length ∧ e.2.length ≤ 63) ∧
    (∀ r ∈ src.rows, goodRow r) := by
  unfold PasswordDatabase.load at h
  split at h
  · exact Except.noConfusion h
  next hex =>
  split at h
  · exact Except.noConfusion h
  next hcol =>
  obtain ⟨he, hgood, hnd⟩ := loadRows_ok src.rows [] entries h
  refine ⟨by simpa using hex, by simpa using hcol, by simpa using he,
    hnd (by simp), ?_, hgood⟩
  intro e he2
  have he3 : e ∈ src.rows.map rowEntry := by
    rw [he] at he2
    simpa using he2
  obtain ⟨r, hr, rfl⟩ := List.mem_map.mp he3
  obtain ⟨b, s, hpb, hps, h1, h2, h3, h4⟩ := hgood r hr
  simp only [rowEntry, hpb, hps, Option.getD_some]
  exact ⟨h1, h2, h3, h4⟩

/-- Witness for claim C8: loading one valid row. -/
theorem password_load_invariant_witness :
    ([((1, 1), "abcdefgh")] : List ((Int × Int) × String)) =
      [CsvRow.mk "1" "1" "abcdefgh"].map rowEntry ∧
    (([((1, 1), "abcdefgh")] : List ((Int × Int) × String)).map Prod.fst).Nodup :=
  ⟨(password_load_invariant ⟨true, true, [⟨"1", "1", "abcdefgh"⟩]⟩
      [((1, 1), "abcdefgh")] rfl).2.2.1,
   (password_load_invariant ⟨true, true, [⟨"1", "1", "abcdefgh"⟩]⟩
      [((1, 1), "abcdefgh")] rfl).2.2.2.1⟩

/-- Claim C8 counterexample: a credential containing the non-printable byte
0x01 (length 10 after stripping) loads successfully, so the loader does not
guarantee that every stored credential is printable. -/
theorem password_load_nonprintable_counterexample :
    PasswordDatabase.load ⟨true, true, [⟨"1", "1", "abc\x01defghi"⟩]⟩ =
      Except.ok [((1, 1), "abc\x01defghi")] ∧
    (("abc\x01defghi" : String).data.all fun c => 32 ≤ c.toNat && c.toNat ≤ 126) =
      false := by
  constructor
  · rfl
  · decide
